import Mathlib

/-!
Shallow embedding of the grade/credit aggregation core of `src/app.py`
(CUTM result portal).  Python strings are modelled as `String` / `List Char`,
Python floats as `ℚ` (every numeric literal the code manipulates is decimal),
raising code as `Option` (`Option.none` = an exception escaped), and document
values that may be `None` / non-strings as the `Value` type below.
-/

/-- A Python value as it occurs in a document field: `None`, a string, or a
number.  `Value.null` models Python `None`, `Value.num` any non-string
numeric value. -/
inductive Value where
  | null : Value
  | str : String → Value
  | num : ℚ → Value
deriving DecidableEq

/-- Python `str.strip()` on a character list: drop whitespace on both ends. -/
def stripL (l : List Char) : List Char :=
  ((l.dropWhile Char.isWhitespace).reverse.dropWhile Char.isWhitespace).reverse

/-- Python `s.split(sep)` for a one-character separator: `"".split` gives
`[""]`, and separators at the ends give empty components, exactly as in
Python. -/
def splitOnChar (sep : Char) : List Char → List (List Char)
  | [] => [[]]
  | c :: rest =>
    let r := splitOnChar sep rest
    if c = sep then [] :: r
    else
      match r with
      | [] => [[c]]
      | h :: t => (c :: h) :: t

/-- Numeric value of a digit list (most significant first). -/
def digitsVal (ds : List Char) : ℕ :=
  ds.foldl (fun a c => 10 * a + (c.toNat - '0'.toNat)) 0

/-- Unsigned decimal literal: digits with at most one point, at least one
digit overall (`"2"`, `"2."`, `".5"`).  `Option.none` when malformed. -/
def parseUnsignedDec (l : List Char) : Option ℚ :=
  match splitOnChar '.' l with
  | [ip] =>
    if ip ≠ [] ∧ ip.all Char.isDigit then some (digitsVal ip : ℚ) else Option.none
  | [ip, fp] =>
    if ip ++ fp ≠ [] ∧ (ip ++ fp).all Char.isDigit then
      some ((digitsVal ip : ℚ) + (digitsVal fp : ℚ) / (10 : ℚ) ^ fp.length)
    else Option.none
  | _ => Option.none

/-- Python `float(s)` on a string: surrounding whitespace is ignored, an
optional single sign precedes a plain decimal literal.  Real `float()`
additionally accepts exponent (`"1e2"`), underscore (`"1_0"`) and
`"inf"`/`"nan"` forms; those never occur in this repository's credit data
and this model treats them as unparseable, so no theorem below asserts
anything (such as finiteness) that hinges on them.  `Option.none` models
the `ValueError`. -/
def pyFloatL (l : List Char) : Option ℚ :=
  match stripL l with
  | '+' :: r => parseUnsignedDec r
  | '-' :: r => (parseUnsignedDec r).map (fun q => -q)
  | r => parseUnsignedDec r

/-- Sum of `float(p)` over components, `Option.none` as soon as one
component fails to parse (the exception escaping the generator). -/
def sumFloats : List (List Char) → Option ℚ
  | [] => some 0
  | p :: rest =>
    match pyFloatL p, sumFloats rest with
    | some q, some a => some (q + a)
    | _, _ => Option.none

/-- The `try:`-block shared by both credit parsers (`app.py` 152-160 and
168-174): if the string contains `'+'`, split on it, keep components whose
strip is non-empty and sum their float values, otherwise parse the whole
string as one float.  `Option.none` models an exception reaching `except`. -/
def creditTry (l : List Char) : Option ℚ :=
  if l.contains '+' then
    sumFloats (((splitOnChar '+' l).map stripL).filter (fun p => p ≠ []))
  else pyFloatL l

/-- Python `credit_str.replace("--", "+")`: left-to-right, non-overlapping. -/
def replDD : List Char → List Char
  | [] => []
  | [c] => [c]
  | c1 :: c2 :: rest =>
    if c1 == '-' && c2 == '-' then '+' :: replDD rest
    else c1 :: replDD (c2 :: rest)

/-- Whether a character list contains the substring `"--"`. -/
def hasDDL : List Char → Bool
  | [] => false
  | [_] => false
  | c1 :: c2 :: rest => (c1 == '-' && c2 == '-') || hasDDL (c2 :: rest)

/-- Whether a `Value` is a string containing the substring `"--"`. -/
def valueHasDD : Value → Bool
  | Value.str s => hasDDL s.toList
  | _ => false

/-- Source `app.py` 148-162, `parse_credits_normalized(credit_str)`: `0.0` for
falsy or non-string input; otherwise `--` is first rewritten to `+`, then
the shared try-block runs, any exception yielding `0.0`. -/
def parse_credits_normalized : Value → ℚ
  | Value.str s => if s = "" then 0 else (creditTry (replDD s.toList)).getD 0
  | _ => 0

/-- Source `app.py` 164-176, `parse_credits(credit_str)`: identical to the
normalized variant except that `--` is not rewritten. -/
def parse_credits : Value → ℚ
  | Value.str s => if s = "" then 0 else (creditTry s.toList).getD 0
  | _ => 0

/-- Source `app.py` 92, `GRADE_MAP`: the eleven-entry letter-grade table. -/
def GRADE_MAP : List (String × ℚ) :=
  [("O", 10), ("E", 9), ("A", 8), ("B", 7), ("C", 6), ("D", 5),
   ("S", 0), ("M", 0), ("F", 0), ("I", 0), ("R", 0)]

/-- Python `dict.get(k, dflt)` over an association list with rational values. -/
def assocGetQ (d : List (String × ℚ)) (k : String) (dflt : ℚ) : ℚ :=
  match d with
  | [] => dflt
  | (a, b) :: rest => if k = a then b else assocGetQ rest k dflt

/-- Source `app.py` 94-95, `convert_grade_to_integer(grade)` =
`GRADE_MAP.get(grade, 0)`. -/
def convert_grade_to_integer (g : String) : ℚ :=
  assocGetQ GRADE_MAP g 0

/-- Whether `needle` starts `hay` (character lists). -/
def listStarts : List Char → List Char → Bool
  | [], _ => true
  | _ :: _, [] => false
  | a :: arest, b :: brest => a == b && listStarts arest brest

/-- Python `needle in hay` substring containment on strings. -/
def isSubL (needle : List Char) : List Char → Bool
  | [] => listStarts needle []
  | c :: t => listStarts needle (c :: t) || isSubL needle t

/-- Python `float(g)` applied to an arbitrary document value: numbers pass
through, strings are parsed, `None` raises (`Option.none`). -/
def pyFloatV : Value → Option ℚ
  | Value.num q => some q
  | Value.str s => pyFloatL s.toList
  | Value.null => Option.none

/-- Source `app.py` 106/126: the grade-point value a row contributes.
`convert_grade_to_integer(g) if isinstance(g, str) and g in "OEABCDSMF"
else float(g)`; note the membership test is substring containment in the
nine-character string `"OEABCDSMF"`.  `Option.none` models `float` raising. -/
def gradeUsed : Value → Option ℚ
  | Value.str s =>
    if isSubL s.toList "OEABCDSMF".toList then some (convert_grade_to_integer s)
    else pyFloatL s.toList
  | v => pyFloatV v

/-- One grade row as consumed by the SGPA/CGPA loops: the stored credit
string (the ingestor always persists `Credits` as a string) and the grade
field, which may be missing (`Value.null`) or non-string. -/
structure Row where
  credits : String
  grade : Value
deriving DecidableEq

/-- Source `app.py` 101: `[p for p in str(credits_str).split('+') if p.strip() != ""]`. -/
def rowParts (credits : String) : List (List Char) :=
  (splitOnChar '+' credits.toList).filter (fun p => stripL p ≠ [])

/-- Source `app.py` 104: `[float(part) for part in parts]`; `Option.none` when some
component raises `ValueError`. -/
def rowCredits : List (List Char) → Option (List ℚ)
  | [] => some []
  | p :: rest =>
    match pyFloatL p, rowCredits rest with
    | some q, some a => some (q :: a)
    | _, _ => Option.none

/-- The accumulation loop of `calculate_sgpa` (`app.py` 98-111), carrying
`total_credits` and `total_weighted_grades`; at the end the average is
`total_weighted_grades / total_credits if total_credits else 0`.
`Option.none` models an uncaught exception in the loop body. -/
def calcSgpaGo : List Row → ℚ → ℚ → Option (ℚ × ℚ)
  | [], tc, tw => some ((if tc = 0 then 0 else tw / tc), tc)
  | r :: rest, tc, tw =>
    if rowParts r.credits = [] then calcSgpaGo rest tc tw
    else
      match rowCredits (rowParts r.credits) with
      | Option.none => Option.none
      | some cs =>
        match gradeUsed r.grade with
        | Option.none => Option.none
        | some g => calcSgpaGo rest (tc + cs.sum) (tw + g * cs.sum)

/-- Source `app.py` 97-111, `calculate_sgpa(result)`: returns `(sgpa, total_credits)`. -/
def calculate_sgpa (rows : List Row) : Option (ℚ × ℚ) :=
  calcSgpaGo rows 0 0

/-- Source `app.py` 113-131, `calculate_cgpa`: the identical accumulation over the
student's whole row set, returning only the average. -/
def calculate_cgpa (rows : List Row) : Option ℚ :=
  (calcSgpaGo rows 0 0).map (fun p => p.1)

/-- Python `dict.get(k, dflt)` over an association list with string values. -/
def assocGetS (d : List (String × String)) (k dflt : String) : String :=
  match d with
  | [] => dflt
  | (a, b) :: rest => if k = a then b else assocGetS rest k dflt

/-- Source `app.py` 48-54, the `branch_codes` table of `get_branch_from_reg_no`. -/
def branch_codes : List (String × String) :=
  [("1", "Civil Engineering"),
   ("2", "Computer Science Engineering"),
   ("3", "Electronics & Communication Engineering"),
   ("5", "Electrical & Electronics Engineering"),
   ("6", "Mechanical Engineering")]

/-- Python `s[i:i+1]`: the one-character slice at index `i` (empty when out
of range). -/
def sliceOne (s : String) (i : ℕ) : String :=
  ((s.toList.drop i).take 1).asString

/-- Source `app.py` 46-59, `get_branch_from_reg_no(reg_no)`: identifiers of length
at least 10 look up the character at index 7 in `branch_codes` with default
`"Unknown Branch"`; shorter identifiers give `"Invalid Registration"`. -/
def get_branch_from_reg_no (reg : String) : String :=
  if 10 ≤ reg.length then assocGetS branch_codes (sliceOne reg 7) "Unknown Branch"
  else "Invalid Registration"

/-- Source `app.py` 134-145, `BASKET_CREDIT_REQUIREMENTS`: the requirement table,
with both the Roman-numeral keys and the "alternative naming" numeric keys
for the same five baskets. -/
def BASKET_CREDIT_REQUIREMENTS : List (String × ℚ) :=
  [("Basket I", 17), ("Basket II", 12), ("Basket III", 25),
   ("Basket IV", 58), ("Basket V", 48),
   ("Basket 1", 17), ("Basket 2", 12), ("Basket 3", 25),
   ("Basket 4", 58), ("Basket 5", 48)]

/-- Source `app.py` 1274: the five canonical baskets iterated by the reconciler. -/
def all_baskets : List String :=
  ["Basket I", "Basket II", "Basket III", "Basket IV", "Basket V"]

/-- Source `app.py` 1281: `sum(BASKET_CREDIT_REQUIREMENTS.values())` (the dict's
keys are pairwise distinct, so its values are exactly the list's values). -/
def totalRequiredCredits : ℚ :=
  (BASKET_CREDIT_REQUIREMENTS.map (fun e => e.2)).sum

/-- Python `round(x)` (no digits): round half to even. -/
def roundHalfEven (q : ℚ) : ℤ :=
  let f := Int.floor q
  if q - f < 1 / 2 then f
  else if q - f > 1 / 2 then f + 1
  else if f % 2 = 0 then f else f + 1

/-- Python `round(x, 1)` on the exact decimal values arising here. -/
def pyRound1 (q : ℚ) : ℚ :=
  (roundHalfEven (q * 10) : ℚ) / 10

/-- Source `app.py` 1340: the overall completion percentage,
`round(earned / total_required * 100, 1) if total_required > 0 else 0`. -/
def overallPercentage (earned : ℚ) : ℚ :=
  if 0 < totalRequiredCredits then pyRound1 (earned / totalRequiredCredits * 100) else 0

/-- Python `str.upper()` (ASCII case suffices for this repository's data). -/
def pyUpper (s : String) : String :=
  (s.toList.map Char.toUpper).asString

/-- Python `str.strip()` on a `String`. -/
def pyStrip (s : String) : String :=
  (stripL s.toList).asString

/-- Python `.strip().upper()`, the normalization `update_data` applies to
registration numbers, subject codes and grades. -/
def normKey (s : String) : String :=
  pyUpper (pyStrip s)

/-- Python `str.isdigit()` (ASCII digits; true only on non-empty strings). -/
def pyIsdigit (s : String) : Bool :=
  s ≠ "" && s.toList.all Char.isDigit

/-- One stored grade record of the `CUTM1` collection.  The `grade` field is
`Option String` because `existing_record.get("Grade")` may find the field
absent. -/
structure GradeRecord where
  regNo : String
  subjectCode : String
  grade : Option String
  name : String
  sem : String
  subjectName : String
  subjectType : String
  credits : String
deriving DecidableEq

/-- One uploaded spreadsheet row after column resolution and `str()`
coercion of the raw cells (`app.py` 366-376 applies strip/upper on top). -/
structure UploadRow where
  regNo : String
  subjectCode : String
  subjectName : String
  name : String
  sem : String
  credits : String
  grade : String
  subjectType : String
deriving DecidableEq

/-- Source `app.py` 385: the backlog/placeholder grades that may be overwritten. -/
def backlogMarkers : List String :=
  ["F", "S", "M", "I", "R", ""]

/-- Test `existing_record.get("Grade") in {'F', 'S', 'M', 'I', 'R', ''}`:
an absent field (`None`) is not in the set. -/
def gradeIsMarker : Option String → Bool
  | Option.none => false
  | some g => backlogMarkers.contains g

/-- The `find_one` / `update_one` predicate
`{"Reg_No": reg_no, "Subject_Code": subject_code}`. -/
def recMatches (r c : String) (g : GradeRecord) : Bool :=
  g.regNo == r && g.subjectCode == c

/-- Model of `update_one(..., {"$set": {"Grade": grade}})` on a list-modelled
collection: the first matching record gets the new grade, all others are
untouched. -/
def updateFirstGrade (r c ng : String) : List GradeRecord → List GradeRecord
  | [] => []
  | rec :: rest =>
    if recMatches r c rec then { rec with grade := some ng } :: rest
    else rec :: updateFirstGrade r c ng rest

/-- Source `app.py` 377: `f"Sem {sem}" if sem.isdigit() else sem`. -/
def semValue (sem : String) : String :=
  if pyIsdigit sem then "Sem " ++ sem else sem

/-- The record `insert_one` stores for a previously unseen
(registration, subject) pair (`app.py` 392-401). -/
def newRecordOf (row : UploadRow) : GradeRecord :=
  { regNo := normKey row.regNo
    subjectCode := normKey row.subjectCode
    grade := some (normKey row.grade)
    name := pyStrip row.name
    sem := semValue (pyStrip row.sem)
    subjectName := pyStrip row.subjectName
    subjectType := pyStrip row.subjectType
    credits := pyStrip row.credits }

/-- One iteration of the `update_data` ingestion loop (`app.py` 365-402)
against a list-modelled collection.  Returns the new collection plus the
increments of `updated_count` and `inserted_count`. -/
def processRow (db : List GradeRecord) (row : UploadRow) :
    List GradeRecord × ℕ × ℕ :=
  let r := normKey row.regNo
  let c := normKey row.subjectCode
  if r = "" ∨ c = "" then (db, 0, 0)
  else
    match db.find? (recMatches r c) with
    | some rec =>
      if gradeIsMarker rec.grade then (updateFirstGrade r c (normKey row.grade) db, 1, 0)
      else (db, 0, 0)
    | Option.none => (db ++ [newRecordOf row], 0, 1)

/-- One of the student's stored subject rows as fetched by `baskettrack`
(`app.py` 1072-1074): subject code, name, grade, semester and the raw
credit string. -/
structure StudentSubj where
  subjectCode : String
  subjectName : String
  grade : String
  sem : String
  credits : String
deriving DecidableEq

/-- One curriculum subject as pushed by the grouping stage of the `cbcs`
aggregation (`app.py` 1147-1155). -/
structure RawSubj where
  code : String
  name : String
  credits : String
  originalBasket : String
  branch : String
deriving DecidableEq

/-- One group of the aggregation output: normalized basket id, its pushed
subjects, and the `$sum: 1` count. -/
structure RawBasket where
  id : String
  subjects : List RawSubj
  totalSubjects : ℕ
deriving DecidableEq

/-- A processed subject dict as built at `app.py` 1195-1206 / 1236-1247. -/
structure ProcSubj where
  code : String
  name : String
  credits : String
  creditsNumeric : ℚ
  completed : Bool
  semester : Option String
  earnedCredits : ℚ
  originalBasket : String
  branch : String
  isDefaultAssigned : Bool
deriving DecidableEq

/-- A processed basket dict after the Python post-processing
(`app.py` 1214-1217). -/
structure ProcBasket where
  id : String
  subjects : List ProcSubj
  totalSubjects : ℕ
  completedSubjects : ℕ
  totalEarnedCredits : ℚ
deriving DecidableEq

/-- Source `app.py` 1169: the set of the student's subject codes (membership is
all that is ever used of it). -/
def studentSubjectCodes (student : List StudentSubj) : List String :=
  student.map (fun s => s.subjectCode)

/-- Source `app.py` 1189-1193: the student's semester for a completed subject is
taken from the first matching student row. -/
def findSemester (student : List StudentSubj) (code : String) : Option String :=
  (student.find? (fun t => t.subjectCode == code)).map (fun t => t.sem)

/-- Source `app.py` 1177-1206: processing of one curriculum subject. -/
def processSubject (student : List StudentSubj) (s : RawSubj) : ProcSubj :=
  let completed := decide (s.code ∈ studentSubjectCodes student)
  let cn := parse_credits_normalized (Value.str s.credits)
  { code := s.code
    name := s.name
    credits := s.credits
    creditsNumeric := cn
    completed := completed
    semester := if completed then findSemester student s.code else Option.none
    earnedCredits := if completed then cn else 0
    originalBasket := s.originalBasket
    branch := s.branch
    isDefaultAssigned := false }

/-- Source `app.py` 1208-1212: `total_earned_credits` accumulates `earned_credits`
of the completed subjects. -/
def basketEarned (subs : List ProcSubj) : ℚ :=
  (subs.filter (fun p => p.completed)).foldl (fun a p => a + p.earnedCredits) 0

/-- Source `app.py` 1172-1217: processing of one aggregation group. -/
def processBasket (student : List StudentSubj) (b : RawBasket) : ProcBasket :=
  let subs := b.subjects.map (processSubject student)
  { id := b.id
    subjects := subs
    totalSubjects := b.totalSubjects
    completedSubjects := (subs.filter (fun p => p.completed)).length
    totalEarnedCredits := basketEarned subs }

/-- All groups processed. -/
def processBaskets (student : List StudentSubj) (raw : List RawBasket) :
    List ProcBasket :=
  raw.map (processBasket student)

/-- Source `app.py` 1224-1228: codes of curriculum subjects the student completed. -/
def completedSubjectCodes (l : List ProcBasket) : List String :=
  l.foldr
    (fun b acc => ((b.subjects.filter (fun p => p.completed)).map (fun p => p.code)) ++ acc)
    []

/-- Source `app.py` 1230: `student_subject_codes - completed_subject_codes`. -/
def uncategorizedCodes (student : List StudentSubj) (l : List ProcBasket) :
    List String :=
  (studentSubjectCodes student).filter
    (fun c => decide (c ∉ completedSubjectCodes l))

/-- Source `app.py` 1236-1247: the synthesized entry for one uncategorized
student subject. -/
def mkUncategorized (t : StudentSubj) : ProcSubj :=
  let cn := parse_credits_normalized (Value.str t.credits)
  { code := t.subjectCode
    name := t.subjectName
    credits := t.credits
    creditsNumeric := cn
    completed := true
    semester := some t.sem
    earnedCredits := cn
    originalBasket := "Unknown"
    branch := "Unknown"
    isDefaultAssigned := true }

/-- Source `app.py` 1233-1247: all uncategorized entries, in student-row order. -/
def uncategorizedSubjects (student : List StudentSubj) (l : List ProcBasket) :
    List ProcSubj :=
  (student.filter
      (fun t => decide (t.subjectCode ∈ uncategorizedCodes student l))).map
    mkUncategorized

/-- Python `sum(s['earned_credits'] for s in uncategorized_subjects)` (`app.py` 1259/1269). -/
def earnedSum (subs : List ProcSubj) : ℚ :=
  (subs.map (fun p => p.earnedCredits)).sum

/-- The in-place mutation of the found `Basket V` entry (`app.py` 1256-1259). -/
def extendV (u : List ProcSubj) (b : ProcBasket) : ProcBasket :=
  { b with
    subjects := b.subjects ++ u
    totalSubjects := b.totalSubjects + u.length
    completedSubjects := b.completedSubjects + u.length
    totalEarnedCredits := b.totalEarnedCredits + earnedSum u }

/-- Source `app.py` 1253-1261: walk the baskets, extend the first one whose id is
`"Basket V"` and stop; `Option.none` when none is found. -/
def extendFirstBasketV (u : List ProcSubj) : List ProcBasket → Option (List ProcBasket)
  | [] => Option.none
  | b :: rest =>
    if b.id == "Basket V" then some (extendV u b :: rest)
    else (extendFirstBasketV u rest).map (fun l => b :: l)

/-- Source `app.py` 1264-1270: the fresh `Basket V` group created when none existed. -/
def newBasketV (u : List ProcSubj) : ProcBasket :=
  { id := "Basket V"
    subjects := u
    totalSubjects := u.length
    completedSubjects := u.length
    totalEarnedCredits := earnedSum u }

/-- Source `app.py` 1252-1271: add the uncategorized subjects to `Basket V`
(no-op when there are none). -/
def addUncategorized (l : List ProcBasket) (u : List ProcSubj) : List ProcBasket :=
  if u.isEmpty then l
  else
    match extendFirstBasketV u l with
    | some l2 => l2
    | Option.none => l ++ [newBasketV u]

/-- Source `app.py` 1168-1271 as one function: process the grouped curriculum
data against the student's rows and fold the uncategorized subjects into
`Basket V`. -/
def baskettrackAssemble (student : List StudentSubj) (raw : List RawBasket) :
    List ProcBasket :=
  let processed := processBaskets student raw
  addUncategorized processed (uncategorizedSubjects student processed)

/-- The first basket whose id is `"Basket V"`. -/
def findBasketV (l : List ProcBasket) : Option ProcBasket :=
  l.find? (fun b => b.id == "Basket V")

/-- Earned credits of `Basket V` before the uncategorized subjects are
folded in (0 when the group does not exist). -/
def priorBasketVEarned (l : List ProcBasket) : ℚ :=
  ((findBasketV l).map (fun b => b.totalEarnedCredits)).getD 0

/-- Python `str.split()` (no argument): split on whitespace runs, dropping
empty components.  `acc` holds the current word, reversed. -/
def wsSplitAux : List Char → List Char → List (List Char)
  | [], acc => if acc = [] then [] else [acc.reverse]
  | c :: rest, acc =>
    if c.isWhitespace then
      if acc = [] then wsSplitAux rest [] else acc.reverse :: wsSplitAux rest []
    else wsSplitAux rest (c :: acc)

/-- Python `branch.split()` as a list of strings. -/
def pySplit (s : String) : List String :=
  (wsSplitAux s.toList []).map List.asString

/-- Python `str(list_of_strings)` / f-string interpolation of a list:
`['Computer', 'Science', 'Engineering']`. -/
def pyReprList (ws : List String) : String :=
  "[" ++ String.intercalate ", " (ws.map (fun w => "'" ++ w ++ "'")) ++ "]"

/-- A regular-expression atom of the dialect the branch patterns use:
the wildcard `.`, a literal character, or a bracket class of literal
characters (the generated classes contain no ranges). -/
inductive RAtom where
  | dot : RAtom
  | lit : Char → RAtom
  | cls : List Char → RAtom
deriving DecidableEq

/-- Lexer token: an atom or a postfix `*`. -/
inductive RTok where
  | atom : RAtom → RTok
  | star : RTok
deriving DecidableEq

/-- Lex a pattern; the second argument is `some acc` while inside a
bracket class (`acc` reversed). -/
def lexRegexAux : List Char → Option (List Char) → List RTok
  | [], Option.none => []
  | [], some acc => [RTok.atom (RAtom.cls acc.reverse)]
  | c :: rest, some acc =>
    if c = ']' then RTok.atom (RAtom.cls acc.reverse) :: lexRegexAux rest Option.none
    else lexRegexAux rest (some (c :: acc))
  | c :: rest, Option.none =>
    if c = '[' then lexRegexAux rest (some [])
    else if c = '*' then RTok.star :: lexRegexAux rest Option.none
    else if c = '.' then RTok.atom RAtom.dot :: lexRegexAux rest Option.none
    else RTok.atom (RAtom.lit c) :: lexRegexAux rest Option.none

/-- Attach each postfix `*` to the atom before it. -/
def tokensToPieces : List RTok → List (RAtom × Bool)
  | [] => []
  | RTok.atom a :: RTok.star :: rest => (a, true) :: tokensToPieces rest
  | RTok.atom a :: rest => (a, false) :: tokensToPieces rest
  | RTok.star :: rest => tokensToPieces rest

/-- Parse a pattern string into starred atoms. -/
def parseRegex (pat : List Char) : List (RAtom × Bool) :=
  tokensToPieces (lexRegexAux pat Option.none)

/-- Whether an atom matches one character. -/
def ratomMatch : RAtom → Char → Bool
  | RAtom.dot, _ => true
  | RAtom.lit a, x => a == x
  | RAtom.cls cs, x => cs.contains x

/-- Backtracking matcher anchored at the current position; the fuel only
bounds the recursion and `pieces.length + input.length + 1` always
suffices, since every step drops a piece or consumes a character. -/
def matchFuel : ℕ → List (RAtom × Bool) → List Char → Bool
  | 0, _, _ => false
  | _ + 1, [], _ => true
  | f + 1, (a, star) :: ps, cs =>
    if star then
      matchFuel f ps cs ||
        (match cs with
         | [] => false
         | c :: cs2 => ratomMatch a c && matchFuel f ((a, true) :: ps) cs2)
    else
      match cs with
      | [] => false
      | c :: cs2 => ratomMatch a c && matchFuel f ps cs2

/-- The whole pattern matches starting at this position. -/
def regexMatchAt (ps : List (RAtom × Bool)) (cs : List Char) : Bool :=
  matchFuel (ps.length + cs.length + 1) ps cs

/-- Unanchored search, as MongoDB's `$regex` performs for patterns without
anchors: the pattern may match at any position. -/
def regexSearch (ps : List (RAtom × Bool)) : List Char → Bool
  | [] => regexMatchAt ps []
  | c :: t => regexMatchAt ps (c :: t) || regexSearch ps t

/-- Lower-case a character list. -/
def lowerL (l : List Char) : List Char :=
  l.map Char.toLower

/-- MongoDB `$regex` with `$options: "i"`: case-insensitive unanchored search. -/
def regexFindCI (pat s : String) : Bool :=
  regexSearch (parseRegex (lowerL pat.toList)) (lowerL s.toList)

/-- One `$or` alternative of the curriculum `$match` stage
(`app.py` 1087-1098): equality with a string, equality with a Python list
(the value `branch_short` actually has after the missing `[0]`), or a
case-insensitive regex. -/
inductive BranchCond where
  | eqStr : String → BranchCond
  | eqWords : List String → BranchCond
  | regexCI : String → BranchCond
deriving DecidableEq

/-- Whether a catalogue document whose `Branch` field holds the string
`branchVal` satisfies one alternative.  MongoDB equality between a string
field and an array query value is false, so `eqWords` never matches. -/
def condMatches (branchVal : String) : BranchCond → Bool
  | BranchCond.eqStr s => branchVal == s
  | BranchCond.eqWords _ => false
  | BranchCond.regexCI p => regexFindCI p branchVal

/-- Source `app.py` 1066-1098: `branch_short = branch.split() if branch !=
"Unknown Branch" else "Unknown"`, then the `$or` list — `Branch == "All"`,
`Branch == branch_short`, and (when `branch_short != "Unknown"`, which a
list always is) three regexes interpolating `branch_short` into the
pattern via the f-string. -/
def buildBranchConditions (registration : String) : List BranchCond :=
  let branch := get_branch_from_reg_no registration
  if branch == "Unknown Branch" then
    [BranchCond.eqStr "All", BranchCond.eqStr "Unknown"]
  else
    let ws := pySplit branch
    [BranchCond.eqStr "All",
     BranchCond.eqWords ws,
     BranchCond.regexCI (".*" ++ pyReprList ws ++ ".*"),
     BranchCond.regexCI (pyReprList ws ++ ".*"),
     BranchCond.regexCI (".*" ++ pyReprList ws)]

/-- Whether the curriculum fetch of `baskettrack` (with no basket filter)
selects a catalogue subject whose `Branch` field is `branchVal`, for the
given student registration. -/
def branchSelected (registration branchVal : String) : Bool :=
  (buildBranchConditions registration).any (condMatches branchVal)


/-- Whether a `Value` is a non-empty string (the only inputs that reach the
credit parsers' `try` blocks). -/
def isNonEmptyStr : Value → Bool
  | Value.str s => s != ""
  | _ => false

/-- Stored record whose grade is a passing grade, for concrete ingestion
checks. -/
def demoRecA : GradeRecord :=
  { regNo := "21X", subjectCode := "CS101", grade := some "A", name := "N"
    sem := "Sem 1", subjectName := "Prog", subjectType := "Theory", credits := "3+0+1" }

/-- Stored record whose grade is the backlog marker `"F"`. -/
def demoRecF : GradeRecord :=
  { regNo := "21X", subjectCode := "CS101", grade := some "F", name := "N"
    sem := "Sem 1", subjectName := "Prog", subjectType := "Theory", credits := "3+0+1" }

/-- An uploaded row addressing the same (registration, subject) pair with a
different grade. -/
def demoRow : UploadRow :=
  { regNo := " 21x", subjectCode := "cs101 ", subjectName := "Prog", name := "N"
    sem := "1", credits := "3+0+1", grade := "b", subjectType := "Theory" }

/-- A completed student subject that appears in no curriculum basket. -/
def demoSubj : StudentSubj :=
  { subjectCode := "XTRA1", subjectName := "Extra", grade := "A"
    sem := "Sem 2", credits := "2+1+0" }

/-- A one-row student record set containing `demoSubj`. -/
def demoStudent : List StudentSubj := [demoSubj]

/-- C1 counter-evidence: the overall summary's required-credit total is the
sum over the ten-entry requirement dict (Roman and numeric aliases both
counted), i.e. 320, not the five-basket sum 160; a student with exactly 160
earned credits therefore shows an overall percentage of 50.0 where the
claim's formula gives 100.0. -/
theorem basket_total_required_credits_is_320 :
    BASKET_CREDIT_REQUIREMENTS.length = 10 ∧
    totalRequiredCredits = 320 ∧
    totalRequiredCredits ≠ 17 + 12 + 25 + 58 + 48 ∧
    overallPercentage 160 = 50 ∧
    pyRound1 (160 / (17 + 12 + 25 + 58 + 48) * 100) = 100 ∧
    all_baskets.length = 5 := by
  with_unfolding_all decide

/-- C2 counter-evidence: the grade table itself maps the recognized letters
`I` and `R` to 0, but the aggregation's membership test `g in "OEABCDSMF"`
misses them, so `float("I")` is attempted and raises, aborting the SGPA
computation; meanwhile the substring test also routes the non-letter `"BC"`
to the table (value 0) instead of `float`. -/
theorem grade_point_lookup_crashes_on_I_R :
    convert_grade_to_integer "I" = 0 ∧
    convert_grade_to_integer "R" = 0 ∧
    gradeUsed (Value.str "I") = Option.none ∧
    gradeUsed (Value.str "R") = Option.none ∧
    calculate_sgpa [{ credits := "1", grade := Value.str "I" }] = Option.none ∧
    gradeUsed (Value.str "O") = some 10 ∧
    gradeUsed (Value.str "BC") = some 0 := by
  with_unfolding_all decide

/-- C5 counter-evidence: for a Computer Science student the curriculum
fetch interpolates the word list `['Computer', 'Science', 'Engineering']`
(from `branch.split()` without `[0]`) into its regexes, whose bracket class
then matches any `Branch` containing one of those characters: the value
`"uuu"` is selected although it is neither `"All"`, nor the decoded branch,
nor in any substring relation with the branch name. -/
theorem branch_fetch_selects_garbage :
    branchSelected "2105200200" "uuu" = true ∧
    get_branch_from_reg_no "2105200200" = "Computer Science Engineering" ∧
    "uuu" ≠ "All" ∧
    "uuu" ≠ "Computer Science Engineering" ∧
    isSubL (lowerL "uuu".toList) (lowerL "Computer Science Engineering".toList) = false ∧
    isSubL (lowerL "Computer Science Engineering".toList) (lowerL "uuu".toList) = false := by
  decide

/-- C6 counterexample: on the input `"-1"` both credit parsers return the
negative float `-1.0`, so the parsed result is not always non-negative. -/
theorem parse_credits_negative_result :
    parse_credits_normalized (Value.str "-1") = -1 ∧
    parse_credits (Value.str "-1") = -1 ∧
    parse_credits_normalized (Value.str "-1") < 0 := by
  with_unfolding_all decide

/-- C7: on `"2+0+1"` both parsing variants return 3.0; on `"2--0--1"` the
normalizing variant returns 3.0 while the non-normalizing variant fails the
single-float parse and returns 0.0. -/
theorem parse_credits_on_named_inputs :
    parse_credits_normalized (Value.str "2+0+1") = 3 ∧
    parse_credits (Value.str "2+0+1") = 3 ∧
    parse_credits_normalized (Value.str "2--0--1") = 3 ∧
    parse_credits (Value.str "2--0--1") = 0 := by
  with_unfolding_all decide

/-- C9 counterexample: an identifier shorter than 10 characters decodes to
`"Invalid Registration"`, not `"Unknown Branch"`. -/
theorem decode_branch_short_gives_invalid :
    get_branch_from_reg_no "123456789" = "Invalid Registration" ∧
    get_branch_from_reg_no "123456789" ≠ "Unknown Branch" ∧
    ("123456789" : String).length < 10 := by
  decide

theorem replDD_of_no_dd : ∀ (l : List Char), hasDDL l = false → replDD l = l
  | [] => fun _ => rfl
  | [_] => fun _ => rfl
  | c1 :: c2 :: rest => fun h => by
    simp only [hasDDL] at h
    cases hdd : (c1 == '-' && c2 == '-') with
    | true => rw [hdd] at h; simp at h
    | false =>
      rw [hdd, Bool.false_or] at h
      simp only [replDD]
      rw [if_neg (by simp [hdd])]
      exact congrArg (fun t => c1 :: t) (replDD_of_no_dd (c2 :: rest) h)

/-- C10: on every input without the substring `"--"` the two credit-parsing
variants return exactly the same value (the `--` rewrite is the identity
there, and the rest of the two functions is the same code). -/
theorem parse_variants_agree (v : Value) (h : valueHasDD v = false) :
    parse_credits_normalized v = parse_credits v := by
  cases v with
  | null => rfl
  | num q => rfl
  | str s =>
    simp only [parse_credits_normalized, parse_credits]
    rw [replDD_of_no_dd s.toList (by simpa [valueHasDD] using h)]

/-- Witness for C10 at the concrete input `"2+0+1"`. -/
theorem parse_variants_agree_witness :
    parse_credits_normalized (Value.str "2+0+1") = parse_credits (Value.str "2+0+1") :=
  parse_variants_agree (Value.str "2+0+1") (by decide)

/-- C6 amended: both credit parsers are total, return 0.0 on every
null/empty/non-string input, and return 0.0 whenever the `try`-block fails
(non-numeric input); the result is however not always non-negative. -/
theorem parse_credits_total_and_default (v : Value) :
    (isNonEmptyStr v = false → parse_credits_normalized v = 0 ∧ parse_credits v = 0) ∧
    (∀ s, v = Value.str s → creditTry (replDD s.toList) = Option.none →
      parse_credits_normalized v = 0) ∧
    (∀ s, v = Value.str s → creditTry s.toList = Option.none →
      parse_credits v = 0) := by
  refine ⟨?_, ?_, ?_⟩
  · intro h
    cases v with
    | null => exact ⟨rfl, rfl⟩
    | num q => exact ⟨rfl, rfl⟩
    | str s =>
      have hs : s = "" := by simpa [isNonEmptyStr] using h
      subst hs
      constructor
      · simp [parse_credits_normalized]
      · simp [parse_credits]
  · intro s hv hnone
    subst hv
    simp only [parse_credits_normalized]
    by_cases hs : s = ""
    · rw [if_pos hs]
    · rw [if_neg hs, hnone]
      rfl
  · intro s hv hnone
    subst hv
    simp only [parse_credits]
    by_cases hs : s = ""
    · rw [if_pos hs]
    · rw [if_neg hs, hnone]
      rfl

/-- Witness for C6's amended theorem: the non-numeric string `"abc"` and
the non-string number 5 both parse to 0. -/
theorem parse_credits_total_and_default_witness :
    parse_credits_normalized (Value.str "abc") = 0 ∧ parse_credits (Value.num 5) = 0 :=
  ⟨(parse_credits_total_and_default (Value.str "abc")).2.1 "abc" rfl
      (by with_unfolding_all decide),
   ((parse_credits_total_and_default (Value.num 5)).1 (by decide)).2⟩

theorem calcSgpaGo_avg_zero :
    ∀ (rows : List Row) (tc tw a tcf : ℚ),
      calcSgpaGo rows tc tw = some (a, tcf) → tcf = 0 → a = 0 := by
  intro rows
  induction rows with
  | nil =>
    intro tc tw a tcf h h0
    simp only [calcSgpaGo, Option.some_inj, Prod.mk.injEq] at h
    rw [← h.1, h.2, h0, if_pos rfl]
  | cons r rest ih =>
    intro tc tw a tcf h h0
    by_cases hp : rowParts r.credits = []
    · rw [calcSgpaGo, if_pos hp] at h
      exact ih tc tw a tcf h h0
    · rw [calcSgpaGo, if_neg hp] at h
      cases hc : rowCredits (rowParts r.credits) with
      | none => rw [hc] at h; exact absurd h (by simp)
      | some cs =>
        rw [hc] at h
        cases hg : gradeUsed r.grade with
        | none => rw [hg] at h; exact absurd h (by simp)
        | some g =>
          rw [hg] at h
          exact ih _ _ a tcf h h0

theorem calcSgpaGo_all_skip :
    ∀ (rows : List Row) (tc tw : ℚ),
      (∀ r ∈ rows, rowParts r.credits = []) →
      calcSgpaGo rows tc tw = some ((if tc = 0 then 0 else tw / tc), tc) := by
  intro rows
  induction rows with
  | nil => intro tc tw _; rfl
  | cons r rest ih =>
    intro tc tw h
    rw [calcSgpaGo, if_pos (h r (List.mem_cons_self r rest))]
    exact ih tc tw (fun x hx => h x (List.mem_cons_of_mem r hx))

/-- C8: whenever the SGPA/CGPA accumulation completes with zero total
credits the returned average is the defined zero (no division is
attempted); in particular when every row's credit string splits to an
empty component list, every row is skipped and the computation returns
`(0, 0)` without raising. -/
theorem computeAverage_zero_total (rows : List Row) :
    (∀ a tc, calculate_sgpa rows = some (a, tc) → tc = 0 → a = 0) ∧
    ((∀ r ∈ rows, rowParts r.credits = []) →
      calculate_sgpa rows = some (0, 0) ∧ calculate_cgpa rows = some 0) := by
  constructor
  · intro a tc h h0
    exact calcSgpaGo_avg_zero rows 0 0 a tc h h0
  · intro h
    have h2 := calcSgpaGo_all_skip rows 0 0 h
    constructor
    · rw [calculate_sgpa, h2]
      simp
    · rw [calculate_cgpa, h2]
      simp

/-- Witness for C8: a row whose credit string `"+"` splits to no non-empty
components is skipped and the whole computation returns average 0, total 0. -/
theorem computeAverage_zero_total_witness :
    calculate_sgpa [{ credits := "+", grade := Value.null }] = some (0, 0) :=
  ((computeAverage_zero_total [{ credits := "+", grade := Value.null }]).2 (by decide)).1

/-- C9 amended: identifiers of length at least 10 decode the branch from
the 5-entry table at character index 7 with default `"Unknown Branch"`;
identifiers shorter than 10 characters decode to `"Invalid Registration"`. -/
theorem decode_branch_cases (s : String) :
    (s.length < 10 → get_branch_from_reg_no s = "Invalid Registration") ∧
    (10 ≤ s.length →
      (sliceOne s 7 = "1" → get_branch_from_reg_no s = "Civil Engineering") ∧
      (sliceOne s 7 = "2" → get_branch_from_reg_no s = "Computer Science Engineering") ∧
      (sliceOne s 7 = "3" →
        get_branch_from_reg_no s = "Electronics & Communication Engineering") ∧
      (sliceOne s 7 = "5" →
        get_branch_from_reg_no s = "Electrical & Electronics Engineering") ∧
      (sliceOne s 7 = "6" → get_branch_from_reg_no s = "Mechanical Engineering") ∧
      (sliceOne s 7 ∉ (["1", "2", "3", "5", "6"] : List String) →
        get_branch_from_reg_no s = "Unknown Branch")) := by
  constructor
  · intro h
    rw [get_branch_from_reg_no, if_neg (by omega)]
  · intro h
    rw [get_branch_from_reg_no, if_pos h]
    refine ⟨fun h1 => ?_, fun h2 => ?_, fun h3 => ?_, fun h5 => ?_, fun h6 => ?_, fun hn => ?_⟩
    · rw [h1]; decide
    · rw [h2]; decide
    · rw [h3]; decide
    · rw [h5]; decide
    · rw [h6]; decide
    · simp only [List.mem_cons, List.not_mem_nil, or_false, not_or] at hn
      obtain ⟨n1, n2, n3, n5, n6⟩ := hn
      simp [assocGetS, branch_codes, n1, n2, n3, n5, n6]

/-- Witness for C9's amended theorem: a 9-character identifier decodes to
`"Invalid Registration"`, and a CSE-coded identifier of length 10 decodes
to `"Computer Science Engineering"`. -/
theorem decode_branch_cases_witness :
    get_branch_from_reg_no "123" = "Invalid Registration" ∧
    get_branch_from_reg_no "2105200200" = "Computer Science Engineering" :=
  ⟨(decode_branch_cases "123").1 (by decide),
   ((decode_branch_cases "2105200200").2 (by decide)).2.1 (by decide)⟩

theorem find_first_at (p : GradeRecord → Bool) :
    ∀ (db : List GradeRecord) (i : ℕ) (rec : GradeRecord),
      db[i]? = some rec → p rec = true →
      (∀ j, j < i → ∀ g, db[j]? = some g → p g = false) →
      db.find? p = some rec := by
  intro db
  induction db with
  | nil => intro i rec h; simp at h
  | cons x t ih =>
    intro i rec hget hp hbefore
    cases i with
    | zero =>
      simp only [List.getElem?_cons_zero, Option.some_inj] at hget
      subst hget
      exact List.find?_cons_of_pos t hp
    | succ n =>
      have h0 : p x = false := hbefore 0 (Nat.succ_pos n) x (by simp)
      rw [List.find?_cons_of_neg t (by simp [h0])]
      exact ih n rec (by simpa using hget) hp
        (fun j hj g hg => hbefore (j + 1) (by omega) g (by simpa using hg))

theorem updateFirstGrade_at (r c ng : String) :
    ∀ (db : List GradeRecord) (i : ℕ) (rec : GradeRecord),
      db[i]? = some rec → recMatches r c rec = true →
      (∀ j, j < i → ∀ g, db[j]? = some g → recMatches r c g = false) →
      updateFirstGrade r c ng db = db.set i { rec with grade := some ng } := by
  intro db
  induction db with
  | nil => intro i rec h; simp at h
  | cons x t ih =>
    intro i rec hget hp hbefore
    cases i with
    | zero =>
      simp only [List.getElem?_cons_zero, Option.some_inj] at hget
      subst hget
      rw [updateFirstGrade, if_pos hp, List.set_cons_zero]
    | succ n =>
      have h0 : recMatches r c x = false := hbefore 0 (Nat.succ_pos n) x (by simp)
      rw [updateFirstGrade, if_neg (by simp [h0]), List.set_cons_succ]
      rw [ih n rec (by simpa using hget) hp
        (fun j hj g hg => hbefore (j + 1) (by omega) g (by simpa using hg))]

/-- C3: when an uploaded row addresses an existing (registration id,
subject code) pair — the first matching record of the collection — the
ingestion loop rewrites that record's grade to the uploaded grade exactly
when the prior grade is a backlog/placeholder marker, and otherwise leaves
the collection completely unchanged. -/
theorem ingest_update_iff_backlog (db : List GradeRecord) (row : UploadRow)
    (i : ℕ) (rec : GradeRecord)
    (hr : normKey row.regNo ≠ "") (hc : normKey row.subjectCode ≠ "")
    (hget : db[i]? = some rec)
    (hmatch : recMatches (normKey row.regNo) (normKey row.subjectCode) rec = true)
    (hfirst : ∀ j, j < i → ∀ g, db[j]? = some g →
      recMatches (normKey row.regNo) (normKey row.subjectCode) g = false) :
    (gradeIsMarker rec.grade = false → (processRow db row).1 = db) ∧
    (gradeIsMarker rec.grade = true →
      (processRow db row).1 =
        db.set i { rec with grade := some (normKey row.grade) }) := by
  have hfind :
      db.find? (recMatches (normKey row.regNo) (normKey row.subjectCode)) = some rec :=
    find_first_at _ db i rec hget hmatch hfirst
  constructor
  · intro hm
    simp only [processRow]
    rw [if_neg (by simp [hr, hc]), hfind]
    simp [hm]
  · intro hm
    simp only [processRow]
    rw [if_neg (by simp [hr, hc]), hfind]
    simp only [hm, if_true]
    exact updateFirstGrade_at _ _ _ db i rec hget hmatch hfirst

/-- Witness for C3: against a one-record collection, an upload of grade
`"b"` leaves a stored `"A"` untouched and overwrites a stored `"F"` with
`"B"`. -/
theorem ingest_update_iff_backlog_witness :
    (processRow [demoRecA] demoRow).1 = [demoRecA] ∧
    (processRow [demoRecF] demoRow).1 =
      List.set [demoRecF] 0 { demoRecF with grade := some (normKey demoRow.grade) } := by
  constructor
  · exact (ingest_update_iff_backlog [demoRecA] demoRow 0 demoRecA (by decide) (by decide)
      (by decide) (by decide) (fun j hj g hg => absurd hj (Nat.not_lt_zero j))).1 (by decide)
  · exact (ingest_update_iff_backlog [demoRecF] demoRow 0 demoRecF (by decide) (by decide)
      (by decide) (by decide) (fun j hj g hg => absurd hj (Nat.not_lt_zero j))).2 (by decide)

theorem processBasket_subjects (student : List StudentSubj) (b : RawBasket) :
    (processBasket student b).subjects = b.subjects.map (processSubject student) := rfl

theorem processSubject_code (student : List StudentSubj) (t : RawSubj) :
    (processSubject student t).code = t.code := rfl

theorem completed_code_from_raw :
    ∀ (student : List StudentSubj) (raw : List RawBasket) (c : String),
      c ∈ completedSubjectCodes (processBaskets student raw) →
      ∃ b ∈ raw, ∃ t ∈ b.subjects, t.code = c := by
  intro student raw
  induction raw with
  | nil => intro c h; simp [completedSubjectCodes, processBaskets] at h
  | cons b rest ih =>
    intro c h
    simp only [processBaskets, List.map_cons, completedSubjectCodes, List.foldr_cons] at h
    rw [List.mem_append] at h
    cases h with
    | inl h =>
      obtain ⟨p, hp, hpc⟩ := List.mem_map.mp h
      obtain ⟨hpmem, _⟩ := List.mem_filter.mp hp
      rw [processBasket_subjects] at hpmem
      obtain ⟨t, ht, hteq⟩ := List.mem_map.mp hpmem
      refine ⟨b, List.mem_cons_self b rest, t, ht, ?_⟩
      rw [← hpc, ← hteq, processSubject_code]
    | inr h =>
      obtain ⟨b2, hb2, t, ht, hteq⟩ :=
        ih c (by simpa [completedSubjectCodes, processBaskets] using h)
      exact ⟨b2, List.mem_cons_of_mem b hb2, t, ht, hteq⟩

theorem extendV_id (u : List ProcSubj) (b : ProcBasket) :
    (extendV u b).id = b.id := rfl

theorem extendFirstBasketV_none :
    ∀ (u : List ProcSubj) (l : List ProcBasket),
      extendFirstBasketV u l = Option.none → findBasketV l = Option.none := by
  intro u l
  induction l with
  | nil => intro _; rfl
  | cons b rest ih =>
    intro h
    rw [extendFirstBasketV] at h
    cases hb : (b.id == "Basket V") with
    | true =>
      simp only [hb, if_true] at h
      exact Option.noConfusion h
    | false =>
      simp only [hb, Bool.false_eq_true, if_false] at h
      have h2 : extendFirstBasketV u rest = Option.none := Option.map_eq_none'.mp h
      rw [findBasketV, List.find?_cons_of_neg rest (by simp [hb])]
      exact ih h2

theorem extendFirstBasketV_some :
    ∀ (u : List ProcSubj) (l l2 : List ProcBasket),
      extendFirstBasketV u l = some l2 →
      ∃ b, findBasketV l = some b ∧ findBasketV l2 = some (extendV u b) := by
  intro u l
  induction l with
  | nil => intro l2 h; simp [extendFirstBasketV] at h
  | cons b rest ih =>
    intro l2 h
    rw [extendFirstBasketV] at h
    cases hb : (b.id == "Basket V") with
    | true =>
      simp only [hb, if_true, Option.some_inj] at h
      refine ⟨b, ?_, ?_⟩
      · rw [findBasketV, List.find?_cons_of_pos rest hb]
      · rw [← h, findBasketV, List.find?_cons_of_pos rest (show ((extendV u b).id == "Basket V") = true from hb)]
    | false =>
      simp only [hb, Bool.false_eq_true, if_false] at h
      cases hx : extendFirstBasketV u rest with
      | none => rw [hx] at h; simp at h
      | some r2 =>
        rw [hx, Option.map_some', Option.some_inj] at h
        obtain ⟨b0, hfind, hfind2⟩ := ih r2 hx
        refine ⟨b0, ?_, ?_⟩
        · rw [findBasketV, List.find?_cons_of_neg rest (by simp [hb])]
          exact hfind
        · rw [← h, findBasketV, List.find?_cons_of_neg r2 (by simp [hb])]
          exact hfind2

theorem findBasketV_append_newV (l : List ProcBasket) (u : List ProcSubj)
    (h : findBasketV l = Option.none) :
    findBasketV (l ++ [newBasketV u]) = some (newBasketV u) := by
  rw [findBasketV, List.find?_append, show List.find? (fun b => b.id == "Basket V") l = Option.none from h]
  simp [newBasketV]

/-- C4: every student-completed subject whose code appears in no curriculum
basket subject is appended to `Basket V` (the group being created when the
grouped data had none), flagged `is_default_assigned = true` with its full
parsed credit value as earned credits, and `Basket V`'s earned-credit total
grows by exactly the earned credits of the uncategorized entries. -/
theorem uncategorized_appended_to_basketV
    (student : List StudentSubj) (raw : List RawBasket) (s : StudentSubj)
    (hs : s ∈ student)
    (hnew : ∀ b ∈ raw, ∀ t ∈ b.subjects, t.code ≠ s.subjectCode) :
    ∃ b, findBasketV (baskettrackAssemble student raw) = some b ∧
      (∃ p ∈ b.subjects, p.code = s.subjectCode ∧ p.isDefaultAssigned = true ∧
        p.earnedCredits = parse_credits_normalized (Value.str s.credits)) ∧
      b.totalEarnedCredits =
        priorBasketVEarned (processBaskets student raw) +
          earnedSum (uncategorizedSubjects student (processBaskets student raw)) := by
  have hnotin : s.subjectCode ∉ completedSubjectCodes (processBaskets student raw) := by
    intro hmem
    obtain ⟨b, hb, t, ht, hteq⟩ := completed_code_from_raw student raw s.subjectCode hmem
    exact hnew b hb t ht hteq
  have hcode : s.subjectCode ∈ uncategorizedCodes student (processBaskets student raw) := by
    rw [uncategorizedCodes]
    exact List.mem_filter.mpr ⟨List.mem_map.mpr ⟨s, hs, rfl⟩, decide_eq_true hnotin⟩
  have hu : mkUncategorized s ∈
      uncategorizedSubjects student (processBaskets student raw) := by
    rw [uncategorizedSubjects]
    exact List.mem_map.mpr ⟨s, List.mem_filter.mpr ⟨hs, decide_eq_true hcode⟩, rfl⟩
  have hne : uncategorizedSubjects student (processBaskets student raw) ≠ [] :=
    List.ne_nil_of_mem hu
  have hassemble : baskettrackAssemble student raw =
      addUncategorized (processBaskets student raw)
        (uncategorizedSubjects student (processBaskets student raw)) := rfl
  rw [hassemble, addUncategorized, if_neg (by simpa [List.isEmpty_iff] using hne)]
  cases hext : extendFirstBasketV
      (uncategorizedSubjects student (processBaskets student raw))
      (processBaskets student raw) with
  | none =>
    refine ⟨newBasketV (uncategorizedSubjects student (processBaskets student raw)),
      ?_, ?_, ?_⟩
    · exact findBasketV_append_newV _ _ (extendFirstBasketV_none _ _ hext)
    · exact ⟨mkUncategorized s, hu, rfl, rfl, rfl⟩
    · have h0 : priorBasketVEarned (processBaskets student raw) = 0 := by
        rw [priorBasketVEarned, extendFirstBasketV_none _ _ hext]
        rfl
      rw [h0, zero_add]
      rfl
  | some l2 =>
    obtain ⟨b0, hfind, hfind2⟩ := extendFirstBasketV_some _ _ _ hext
    refine ⟨extendV (uncategorizedSubjects student (processBaskets student raw)) b0,
      hfind2, ?_, ?_⟩
    · exact ⟨mkUncategorized s, List.mem_append_right _ hu, rfl, rfl, rfl⟩
    · have hprior : priorBasketVEarned (processBaskets student raw) =
          b0.totalEarnedCredits := by
        rw [priorBasketVEarned, hfind]
        rfl
      rw [hprior]
      rfl

/-- Witness for C4: a student with the single extra subject `XTRA1` (in no
curriculum basket) gets it folded into a fresh `Basket V` with default
assignment and its full parsed credits. -/
theorem uncategorized_appended_to_basketV_witness :
    ∃ b, findBasketV (baskettrackAssemble demoStudent []) = some b ∧
      (∃ p ∈ b.subjects, p.code = demoSubj.subjectCode ∧ p.isDefaultAssigned = true ∧
        p.earnedCredits = parse_credits_normalized (Value.str demoSubj.credits)) ∧
      b.totalEarnedCredits =
        priorBasketVEarned (processBaskets demoStudent []) +
          earnedSum (uncategorizedSubjects demoStudent (processBaskets demoStudent [])) :=
  uncategorized_appended_to_basketV demoStudent [] demoSubj (by decide) (by decide)
